import Mathlib

/-!
Shallow embedding of the ReportsTab filtering-and-aggregation logic of the
registration-tracking screen (src/unnamed/part_000).

Timestamps are modelled as `Int` milliseconds.  A calendar-picker date (the
`fromDate` / `toDate` state) is modelled as an `Int` day index; `startOfDay`
and `endOfDay` turn a day index into the first and last millisecond of that
day, matching date-fns `startOfDay` / `endOfDay` (23:59:59.999).

A registration's `approved_at` is an ISO string in the source, turned into a
`Date` and tested for truthiness (`registration.approved_at ? new Date(...)
: null`); we model it as `Option Int` where `none` stands for a falsy value.
(An unparseable non-empty string yields an Invalid Date whose comparisons are
all false, which behaves identically to `none` in every branch, so `Option
Int` loses nothing.)  `fee_paid` is guarded by `|| 0` in the source, so it
is `Option Int` with `getD 0`.  String identifiers that the source tests for
truthiness (`filter(Boolean)`) are `Option String`, with `none` for
null/undefined and `some ""` for the empty string, which JS `Set` keeps as a
distinct value.
-/

/-- Joined category row (`categories (name)` in the query). -/
structure Category where
  name : String
deriving Repr, DecidableEq

/-- Joined panchayath row (`panchayaths (name, district)` in the query). -/
structure Panchayath where
  name : String
  district : String
deriving Repr, DecidableEq

/-- The `Registration` interface of the source, with nullable fields as
`Option`. -/
structure Registration where
  id : String
  customer_id : String
  name : String
  mobile_number : String
  address : String
  ward : String
  agent_pro : String
  status : String
  fee_paid : Option Int
  created_at : Int
  approved_at : Option Int
  approved_by : Option String
  expires_at : Int
  category_id : Option String
  panchayath_id : Option String
  categories : Category
  panchayaths : Option Panchayath
deriving Repr, DecidableEq

def msPerDay : Int := 86400000

/-- date-fns `startOfDay` on a picker date: first millisecond of day `d`. -/
def startOfDay (d : Int) : Int := d * msPerDay

/-- date-fns `endOfDay` on a picker date: last millisecond of day `d`
(23:59:59.999). -/
def endOfDay (d : Int) : Int := d * msPerDay + (msPerDay - 1)

/-- Modelled from the spec: the date-fns `isWithinInterval` call at line 117;
the library's version pin (package.json) is not under src/, and its behaviour
on an inverted interval differs across date-fns major versions, so we follow
the spec's words: a pure, total, inclusive membership test
"within [start-of-day(from), end-of-day(to)], inclusive". -/
def isWithinInterval (t start stop : Int) : Bool :=
  decide (start ≤ t) && decide (t ≤ stop)

/-- The predicate of `registrations.filter(...)` at lines 106-125: the
"no filter" branch, the `approved_at` truthiness check, and the three
bound-combination branches, ending in the unreachable `return false`. -/
def includeRegistration (fromDate toDate : Option Int) (r : Registration) : Bool :=
  if fromDate.isNone && toDate.isNone then
    true
  else
    match r.approved_at with
    | none => false
    | some registrationDate =>
      match fromDate.map startOfDay, toDate.map endOfDay with
      | some fromDateTime, some toDateTime =>
          isWithinInterval registrationDate fromDateTime toDateTime
      | some fromDateTime, none => decide (fromDateTime ≤ registrationDate)
      | none, some toDateTime => decide (registrationDate ≤ toDateTime)
      | none, none => false

/-- `filteredRegistrations` (line 106): linear filter of the approved set. -/
def filteredRegistrations (registrations : List Registration)
    (fromDate toDate : Option Int) : List Registration :=
  registrations.filter (fun registration =>
    includeRegistration fromDate toDate registration)

/-- `totalRegistrations` (line 128): `filteredRegistrations.length`. -/
def totalRegistrations (filtered : List Registration) : Nat :=
  filtered.length

/-- `totalFeesCollected` (line 129): `reduce((sum, reg) => sum +
(reg.fee_paid || 0), 0)`. -/
def totalFeesCollected (filtered : List Registration) : Int :=
  filtered.foldl (fun sum reg => sum + reg.fee_paid.getD 0) 0

/-- `totalCategories` (line 130): `[...new Set(map(reg =>
reg.category_id))].length`.  A JS `Set` of the id values has as many
elements as the deduplicated list, so the count is `dedup.length`. -/
def totalCategories (filtered : List Registration) : Nat :=
  ((filtered.map (fun reg => reg.category_id)).dedup).length

/-- JS truthiness of a nullable string id (`Boolean`): null/undefined and
the empty string are falsy. -/
def truthy : Option String → Bool
  | none => false
  | some s => !(s.isEmpty)

/-- `totalPanchayaths` (line 131): `[...new Set(map(reg =>
reg.panchayath_id))].filter(Boolean).length` — deduplicate first, then drop
falsy values. -/
def totalPanchayaths (filtered : List Registration) : Nat :=
  (((filtered.map (fun reg => reg.panchayath_id)).dedup).filter truthy).length

/-- `pendingAmount` (line 132): same fee reduce over the unfiltered pending
set. -/
def pendingAmount (pendingRegistrations : List Registration) : Int :=
  pendingRegistrations.foldl (fun sum reg => sum + reg.fee_paid.getD 0) 0

/-- The performance grade of line 306: `totalRegistrations > 50 ?
'Excellent' : totalRegistrations > 20 ? 'Good' : 'Fair'`. -/
def performance (totalRegs : Nat) : String :=
  if totalRegs > 50 then "Excellent"
  else if totalRegs > 20 then "Good"
  else "Fair"

/-- The component-local state of `ReportsTab`: the two date bounds, the two
fetched sets, and the loading flag. -/
structure ReportsState where
  fromDate : Option Int
  toDate : Option Int
  registrations : List Registration
  pendingRegistrations : List Registration
  loading : Bool
deriving Repr, DecidableEq

/-- A transient `toast` emitted to the user. -/
inductive Toast where
  | success : String → Toast
  | error : String → Toast
deriving Repr, DecidableEq

/-- The six derived metrics of lines 128-132 and 306. -/
structure ReportMetrics where
  totalRegistrations : Nat
  totalFeesCollected : Int
  totalCategories : Nat
  totalPanchayaths : Nat
  pendingAmount : Int
  performance : String
deriving Repr, DecidableEq

/-- The synchronous filter-and-aggregate pass the component re-runs on each
render: filter the approved set by the date bounds, then derive the six
metrics. -/
def computeReport (s : ReportsState) : ReportMetrics :=
  let filtered := filteredRegistrations s.registrations s.fromDate s.toDate
  { totalRegistrations := totalRegistrations filtered
    totalFeesCollected := totalFeesCollected filtered
    totalCategories := totalCategories filtered
    totalPanchayaths := totalPanchayaths filtered
    pendingAmount := pendingAmount s.pendingRegistrations
    performance := performance (totalRegistrations filtered) }

/-- One render step: reading the state and deriving the metrics; the
returned state is the input state, there being no mutation in the source. -/
def renderReport (s : ReportsState) : ReportsState × ReportMetrics :=
  (s, computeReport s)

/-- `handleClear` (lines 134-137): reset both date bounds. -/
def handleClear (s : ReportsState) : ReportsState :=
  { s with fromDate := none, toDate := none }

/-- `handleExportExcel` (lines 139-143): no data transformation, only a
success toast. -/
def handleExportExcel (s : ReportsState) : ReportsState × Toast :=
  (s, Toast.success "Export Excel functionality to be implemented")

/-- `handleExportPDF` (lines 145-149): no data transformation, only a
success toast. -/
def handleExportPDF (s : ReportsState) : ReportsState × Toast :=
  (s, Toast.success "Export PDF functionality to be implemented")

/-- Builder for concrete registrations used in witnesses. -/
def mkRegistration (status : String) (fee : Option Int) (approved : Option Int)
    (cat pan : Option String) : Registration :=
  { id := "", customer_id := "", name := "", mobile_number := "", address := ""
    ward := "", agent_pro := "", status := status, fee_paid := fee
    created_at := 0, approved_at := approved, approved_by := none
    expires_at := 0, category_id := cat, panchayath_id := pan
    categories := { name := "" }, panchayaths := none }

/-- A small concrete screen state used in witnesses. -/
def sampleState : ReportsState :=
  { fromDate := none, toDate := none
    registrations :=
      [mkRegistration "approved" (some 100) (some (startOfDay 4)) (some "c1") (some "p1")]
    pendingRegistrations := []
    loading := false }

/-- Count of distinct category identifiers among rows, following the spec's
words (metric 3). -/
def specDistinctCategories (rows : List Registration) : Nat :=
  ((rows.map (fun reg => reg.category_id)).toFinset).card

/-- Count of distinct non-empty panchayath identifiers among rows, following
the spec's words (metric 4). -/
def specDistinctPanchayaths (rows : List Registration) : Nat :=
  (((rows.map (fun reg => reg.panchayath_id)).filter truthy).toFinset).card

/-- A single concrete approved registration, approved at the first
millisecond of day 4. -/
def sampleReg : Registration :=
  mkRegistration "approved" (some 100) (some (startOfDay 4)) (some "c1") (some "p1")

/-- A concrete pending set with fees 50 and 75, as in the spec's scenario. -/
def pendingSample : List Registration :=
  [mkRegistration "pending" (some 50) none none none,
    mkRegistration "pending" (some 75) none none none]

/-- A concrete screen state carrying the 50/75 pending set and inverted date
bounds. -/
def pendingSampleState : ReportsState :=
  { fromDate := some 9, toDate := some 2, registrations := []
    pendingRegistrations := pendingSample, loading := false }

/-- Helper: membership in the filtered list is membership in the source list
together with the predicate. -/
theorem mem_filteredRegistrations (regs : List Registration)
    (fd td : Option Int) (r : Registration) :
    r ∈ filteredRegistrations regs fd td ↔
      r ∈ regs ∧ includeRegistration fd td r = true := by
  simp [filteredRegistrations, List.mem_filter]

theorem includeRegistration_none_none (r : Registration) :
    includeRegistration none none r = true := by
  simp [includeRegistration]

theorem includeRegistration_from_only (f : Int) (r : Registration) (t : Int)
    (happ : r.approved_at = some t) :
    includeRegistration (some f) none r = decide (startOfDay f ≤ t) := by
  simp [includeRegistration, happ]

theorem includeRegistration_to_only (e : Int) (r : Registration) (t : Int)
    (happ : r.approved_at = some t) :
    includeRegistration none (some e) r = decide (t ≤ endOfDay e) := by
  simp [includeRegistration, happ]

theorem includeRegistration_both (f e : Int) (r : Registration) (t : Int)
    (happ : r.approved_at = some t) :
    includeRegistration (some f) (some e) r =
      isWithinInterval t (startOfDay f) (endOfDay e) := by
  simp [includeRegistration, happ]

/-- C1: for every approved registration carrying an approved_at timestamp
and every pair of optional date bounds, the filter includes the registration
exactly per the four-branch rule (both unset: included; only from: iff
approved_at is at or after start-of-day(from); only to: iff at or before
end-of-day(to); both: iff within the inclusive interval), and a registration
approved exactly at start-of-day(from) or end-of-day(to) is included. -/
theorem filter_four_branch_rule (regs : List Registration) (r : Registration)
    (t : Int) (hmem : r ∈ regs) (happ : r.approved_at = some t) :
    r ∈ filteredRegistrations regs none none ∧
    (∀ f, r ∈ filteredRegistrations regs (some f) none ↔ startOfDay f ≤ t) ∧
    (∀ e, r ∈ filteredRegistrations regs none (some e) ↔ t ≤ endOfDay e) ∧
    (∀ f e, r ∈ filteredRegistrations regs (some f) (some e) ↔
      startOfDay f ≤ t ∧ t ≤ endOfDay e) ∧
    (∀ f, t = startOfDay f → r ∈ filteredRegistrations regs (some f) none) ∧
    (∀ e, t = endOfDay e → r ∈ filteredRegistrations regs none (some e)) ∧
    (∀ f e, startOfDay f ≤ endOfDay e → t = startOfDay f ∨ t = endOfDay e →
      r ∈ filteredRegistrations regs (some f) (some e)) := by
  have hboth : ∀ f e, r ∈ filteredRegistrations regs (some f) (some e) ↔
      startOfDay f ≤ t ∧ t ≤ endOfDay e := by
    intro f e
    rw [mem_filteredRegistrations, includeRegistration_both f e r t happ]
    simp [isWithinInterval, hmem]
  have hfrom : ∀ f, r ∈ filteredRegistrations regs (some f) none ↔
      startOfDay f ≤ t := by
    intro f
    rw [mem_filteredRegistrations, includeRegistration_from_only f r t happ]
    simp [hmem]
  have hto : ∀ e, r ∈ filteredRegistrations regs none (some e) ↔
      t ≤ endOfDay e := by
    intro e
    rw [mem_filteredRegistrations, includeRegistration_to_only e r t happ]
    simp [hmem]
  refine ⟨?_, hfrom, hto, hboth, ?_, ?_, ?_⟩
  · exact (mem_filteredRegistrations regs none none r).mpr
      ⟨hmem, includeRegistration_none_none r⟩
  · intro f hf
    exact (hfrom f).mpr (le_of_eq hf.symm)
  · intro e he
    exact (hto e).mpr (le_of_eq he)
  · intro f e hfe hcases
    rcases hcases with hf | he
    · exact (hboth f e).mpr ⟨le_of_eq hf.symm, hf ▸ hfe⟩
    · exact (hboth f e).mpr ⟨he ▸ hfe, le_of_eq he⟩

/-- Witness for C1 at a concrete input: a registration approved exactly at
start-of-day of day 4 is included when from is day 4. -/
theorem filter_four_branch_rule_witness :
    sampleReg ∈ filteredRegistrations [sampleReg] (some 4) none :=
  (filter_four_branch_rule [sampleReg] sampleReg (startOfDay 4)
    (List.mem_cons_self _ _) rfl).2.2.2.2.1 4 rfl

/-- C2: for every well-formed input — any approved set, any pending set, and
any optional bounds, a from day later than the to day included — the
filter-and-aggregate pass is a total pure function: the render step returns
the state unchanged and deterministically yields the metrics, and with
inverted bounds it simply filters everything out rather than failing. -/
theorem engine_total_pure (s : ReportsState) :
    (renderReport s).1 = s ∧
    (renderReport s).2 = computeReport s ∧
    (∀ f e : Int, endOfDay e < startOfDay f →
      filteredRegistrations s.registrations (some f) (some e) = []) := by
  refine ⟨rfl, rfl, ?_⟩
  intro f e h
  rw [filteredRegistrations]
  rw [List.filter_eq_nil_iff]
  intro r _
  cases happ : r.approved_at with
  | none => simp [includeRegistration, happ]
  | some t =>
    rw [includeRegistration_both f e r t happ]
    simp only [isWithinInterval, Bool.and_eq_true, decide_eq_true_eq, not_and]
    intro h1 h2
    exact absurd (le_trans h1 h2) (not_le.mpr h)

/-- Witness for C2: on the sample state with from day 5 and to day 3
(inverted bounds) the filtered set is empty, with no failure. -/
theorem engine_total_pure_witness :
    filteredRegistrations sampleState.registrations (some 5) (some 3) = [] :=
  (engine_total_pure sampleState).2.2 5 3 (by decide)

/-- C9: invoking either export action never throws and always emits a
success toast, and neither action changes the state (approved set, pending
set, date bounds). -/
theorem export_actions_noop (s : ReportsState) :
    (handleExportExcel s).1 = s ∧
    (handleExportExcel s).2 =
      Toast.success "Export Excel functionality to be implemented" ∧
    (handleExportPDF s).1 = s ∧
    (handleExportPDF s).2 =
      Toast.success "Export PDF functionality to be implemented" :=
  ⟨rfl, rfl, rfl, rfl⟩

/-- C10: for every approved set and every pair of date bounds, the filtered
set is an order-preserving subsequence of the approved set, so any pairwise
ordering of the approved rows — in particular the loader's
approval-time-descending order — carries over to the filtered rows. -/
theorem filter_order_preserving (regs : List Registration)
    (fd td : Option Int) :
    List.Sublist (filteredRegistrations regs fd td) regs ∧
    (∀ R : Registration → Registration → Prop,
      regs.Pairwise R → (filteredRegistrations regs fd td).Pairwise R) := by
  refine ⟨List.filter_sublist regs, ?_⟩
  intro R h
  exact h.sublist (List.filter_sublist regs)

/-- Witness for C10: the trivial pairwise ordering carries over on a
concrete singleton list. -/
theorem filter_order_preserving_witness :
    (filteredRegistrations [sampleReg] (some 4) none).Pairwise
      (fun a b => a.approved_at = b.approved_at) :=
  (filter_order_preserving [sampleReg] (some 4) none).2
    (fun a b => a.approved_at = b.approved_at) (by simp)

/-- Helper: the length of a deduplicated list is the number of distinct
values. -/
theorem dedup_length_eq_toFinset_card {α : Type} [DecidableEq α]
    (l : List α) : l.dedup.length = l.toFinset.card :=
  (List.card_toFinset l).symm

/-- Helper: deduplicating before filtering counts the distinct values that
pass the filter. -/
theorem dedup_filter_length {α : Type} [DecidableEq α] (p : α → Bool)
    (l : List α) : (l.dedup.filter p).length = (l.filter p).toFinset.card := by
  have hnd : (l.dedup.filter p).Nodup := l.nodup_dedup.filter p
  have hset : (l.dedup.filter p).toFinset = (l.filter p).toFinset := by
    ext a
    simp [List.mem_filter, List.mem_dedup]
  rw [← List.toFinset_card_of_nodup hnd, hset]

/-- C3: totalCategories counts every distinct category_id value of the
filtered rows, falsy ones included, while totalPanchayaths counts the
distinct panchayath_id values after dropping falsy ones: a row with a fresh
category id (empty or not) adds one to totalCategories, and a row with a
falsy panchayath id never changes totalPanchayaths. -/
theorem distinct_count_asymmetry (rows : List Registration) :
    totalCategories rows = specDistinctCategories rows ∧
    totalPanchayaths rows = specDistinctPanchayaths rows ∧
    (∀ r, r.category_id ∉ rows.map (fun reg => reg.category_id) →
      totalCategories (r :: rows) = totalCategories rows + 1) ∧
    (∀ r, truthy r.panchayath_id = false →
      totalPanchayaths (r :: rows) = totalPanchayaths rows) := by
  refine ⟨?_, ?_, ?_, ?_⟩
  · exact dedup_length_eq_toFinset_card _
  · exact dedup_filter_length truthy _
  · intro r hr
    unfold totalCategories
    rw [List.map_cons, List.dedup_cons_of_not_mem hr, List.length_cons]
  · intro r hr
    unfold totalPanchayaths
    rw [List.map_cons]
    by_cases hm : r.panchayath_id ∈ rows.map (fun reg => reg.panchayath_id)
    · rw [List.dedup_cons_of_mem hm]
    · rw [List.dedup_cons_of_not_mem hm, List.filter_cons, hr]
      simp

/-- Witness for C3: a row whose category id is the empty string still adds a
distinct value on an empty table, and a row with no panchayath id leaves the
panchayath count unchanged. -/
theorem distinct_count_asymmetry_witness :
    totalCategories [mkRegistration "approved" none none (some "") none] =
      totalCategories [] + 1 ∧
    totalPanchayaths (mkRegistration "approved" none none (some "") none
        :: [sampleReg]) = totalPanchayaths [sampleReg] :=
  ⟨(distinct_count_asymmetry []).2.2.1
      (mkRegistration "approved" none none (some "") none) (by simp),
    (distinct_count_asymmetry [sampleReg]).2.2.2
      (mkRegistration "approved" none none (some "") none) (by decide)⟩

/-- Helper: the fee fold equals the accumulator plus the sum of the
defaulted fees. -/
theorem foldl_fee_eq (l : List Registration) (init : Int) :
    l.foldl (fun sum reg => sum + reg.fee_paid.getD 0) init =
      init + (l.map (fun reg => reg.fee_paid.getD 0)).sum := by
  induction l generalizing init with
  | nil => simp
  | cons r l ih =>
    rw [List.foldl_cons, ih, List.map_cons, List.sum_cons]
    ring

/-- C4: totalFeesCollected is the sum of fee_paid over the filtered rows
with a missing fee treated as 0, and appending a row whose fee is 0 or
missing never changes the total. -/
theorem fees_sum_spec (rows : List Registration) :
    totalFeesCollected rows =
      (rows.map (fun reg => reg.fee_paid.getD 0)).sum ∧
    (∀ r, r.fee_paid = some 0 ∨ r.fee_paid = none →
      totalFeesCollected (rows ++ [r]) = totalFeesCollected rows) := by
  constructor
  · rw [totalFeesCollected, foldl_fee_eq, zero_add]
  · intro r hr
    unfold totalFeesCollected
    rw [foldl_fee_eq, foldl_fee_eq, List.map_append, List.sum_append]
    have h0 : r.fee_paid.getD 0 = 0 := by
      rcases hr with h | h <;> rw [h] <;> rfl
    simp [h0]

/-- Witness for C4: appending a fee-less row to the sample table leaves the
collected total unchanged. -/
theorem fees_sum_spec_witness :
    totalFeesCollected ([sampleReg] ++
        [mkRegistration "approved" none (some 0) none none]) =
      totalFeesCollected [sampleReg] :=
  (fees_sum_spec [sampleReg]).2
    (mkRegistration "approved" none (some 0) none none) (Or.inr rfl)

/-- C5: for every approved set and every pair of date bounds the filtered
set is a subset of the approved set, and with both bounds unset — as after
handleClear — the filtered set is the full approved set. -/
theorem filter_subset_and_clear (s : ReportsState) :
    (∀ fd td, filteredRegistrations s.registrations fd td ⊆ s.registrations) ∧
    filteredRegistrations s.registrations none none = s.registrations ∧
    (handleClear s).fromDate = none ∧
    (handleClear s).toDate = none ∧
    (handleClear s).registrations = s.registrations ∧
    filteredRegistrations (handleClear s).registrations
      (handleClear s).fromDate (handleClear s).toDate = s.registrations := by
  have hall : filteredRegistrations s.registrations none none =
      s.registrations := by
    rw [filteredRegistrations]
    exact List.filter_eq_self.mpr
      (fun r _ => includeRegistration_none_none r)
  have hsub : ∀ fd td, filteredRegistrations s.registrations fd td ⊆
      s.registrations := by
    intro fd td a ha
    exact (List.mem_filter.mp ha).1
  exact ⟨hsub, hall, rfl, rfl, rfl, hall⟩

/-- Witness for C5: on the sample state, clearing the bounds yields the full
approved set. -/
theorem filter_subset_and_clear_witness :
    filteredRegistrations (handleClear sampleState).registrations
      (handleClear sampleState).fromDate (handleClear sampleState).toDate =
      sampleState.registrations :=
  (filter_subset_and_clear sampleState).2.2.2.2.2

/-- C6: pendingAmount is the sum of fee_paid over the whole unfiltered
pending set (missing fees as 0) and is unchanged by any change of the date
bounds; a pending set with fees 50 and 75 yields 125 under every choice of
bounds. -/
theorem pending_amount_unfiltered (pending : List Registration) :
    pendingAmount pending =
      (pending.map (fun reg => reg.fee_paid.getD 0)).sum ∧
    (∀ s : ReportsState, s.pendingRegistrations = pending →
      ∀ fd td, (computeReport { s with fromDate := fd, toDate := td
        }).pendingAmount = pendingAmount pending) ∧
    (∀ s : ReportsState, s.pendingRegistrations = pendingSample →
      (computeReport s).pendingAmount = 125) := by
  refine ⟨?_, ?_, ?_⟩
  · rw [pendingAmount, foldl_fee_eq, zero_add]
  · intro s hs fd td
    show pendingAmount s.pendingRegistrations = pendingAmount pending
    rw [hs]
  · intro s hs
    show pendingAmount s.pendingRegistrations = 125
    rw [hs]
    decide

/-- Witness for C6: the 50/75 pending set yields 125 with inverted bounds in
the state. -/
theorem pending_amount_unfiltered_witness :
    (computeReport pendingSampleState).pendingAmount = 125 :=
  (pending_amount_unfiltered pendingSample).2.2 pendingSampleState rfl

/-- C7: on every filtered set the performance grade is Excellent above 50
rows, Good above 20 and up to 50, and Fair otherwise; 55 rows give
Excellent, 30 Good, 10 Fair and 0 Fair. -/
theorem performance_grades (regs : List Registration) (fd td : Option Int)
    (rows : List Registration)
    (hrows : rows = filteredRegistrations regs fd td) :
    (totalRegistrations rows > 50 →
      performance (totalRegistrations rows) = "Excellent") ∧
    (20 < totalRegistrations rows ∧ totalRegistrations rows ≤ 50 →
      performance (totalRegistrations rows) = "Good") ∧
    (totalRegistrations rows ≤ 20 →
      performance (totalRegistrations rows) = "Fair") ∧
    performance 55 = "Excellent" ∧ performance 30 = "Good" ∧
    performance 10 = "Fair" ∧ performance 0 = "Fair" := by
  refine ⟨?_, ?_, ?_, rfl, rfl, rfl, rfl⟩
  · intro h
    rw [performance, if_pos h]
  · intro h
    rw [performance, if_neg (by omega), if_pos h.1]
  · intro h
    rw [performance, if_neg (by omega), if_neg (by omega)]

/-- Witness for C7: the empty filtered set grades Fair. -/
theorem performance_grades_witness :
    performance (totalRegistrations
      (filteredRegistrations [] none none)) = "Fair" :=
  (performance_grades [] none none (filteredRegistrations [] none none)
    rfl).2.2.1 (by decide)

/-- C8: a registration with no approved_at is excluded from the filtered set
whenever at least one bound is set, and is included (being in the approved
set) when both bounds are unset. -/
theorem no_approved_at_excluded (regs : List Registration) (r : Registration)
    (happ : r.approved_at = none) :
    (∀ fd td, fd.isSome ∨ td.isSome → r ∉ filteredRegistrations regs fd td) ∧
    (r ∈ regs → r ∈ filteredRegistrations regs none none) := by
  constructor
  · intro fd td hsome hmem
    have hinc := (mem_filteredRegistrations regs fd td r).mp hmem
    have hfalse : includeRegistration fd td r = false := by
      cases fd <;> cases td <;> simp_all [includeRegistration]
    rw [hinc.2] at hfalse
    exact Bool.noConfusion hfalse
  · intro hmem
    exact (mem_filteredRegistrations regs none none r).mpr
      ⟨hmem, includeRegistration_none_none r⟩

/-- Witness for C8: a registration with no approval timestamp is excluded as
soon as a from bound is set. -/
theorem no_approved_at_excluded_witness :
    mkRegistration "approved" (some 10) none none none ∉
      filteredRegistrations [mkRegistration "approved" (some 10) none none none]
        (some 4) none :=
  (no_approved_at_excluded [mkRegistration "approved" (some 10) none none none]
      (mkRegistration "approved" (some 10) none none none) rfl).1
    (some 4) none (Or.inl rfl)
